import Mathlib

/-!
Shallow embedding of `src/services/mbtaApi.js` (subwayfinder): the
station-resolution pipeline, the retrying fetcher, the route cache, the
route classifier and the haversine distance calculator, together with
theorems settling the frozen claims about the natural-language spec.

Conventions of the embedding:
* JSON numbers appearing as data (coordinates) are modelled as `ℚ`
  (exact decimal literals); the real-valued haversine computation is
  modelled over `ℝ`.
* `undefined`/`null`/missing JS values are modelled with `Option`.
* Promise rejection (a thrown error) is modelled with `Except`.
* The event-loop I/O is modelled by passing the observed network
  responses in as explicit arguments (oracles).
-/

namespace Subwayfinder

/-! ### JS string primitives -/

/-- `pat` is a (contiguous) leading segment of `l`. -/
def leadsWith : List Char → List Char → Bool
  | [], _ => true
  | _ :: _, [] => false
  | a :: as, b :: bs => a == b && leadsWith as bs

/-- `pat` occurs contiguously somewhere in `l`. -/
def occursIn : List Char → List Char → Bool
  | pat, [] => pat.isEmpty
  | pat, c :: rest => leadsWith pat (c :: rest) || occursIn pat rest

/-- JS `s.includes(sub)`: case-sensitive substring test. -/
def strIncludes (s sub : String) : Bool :=
  occursIn sub.toList s.toList

/-- JS whitespace as trimmed by `String.prototype.trim`. -/
def isSpaceChar (c : Char) : Bool :=
  c == ' ' || c == '\t' || c == '\n' || c == '\r'

/-- Drop leading and trailing whitespace. -/
def trimChars (l : List Char) : List Char :=
  ((l.dropWhile isSpaceChar).reverse.dropWhile isSpaceChar).reverse

/-- JS `s.toLowerCase().trim()` as used by the station-name merge. -/
def lowerTrim (s : String) : String :=
  String.mk (trimChars (s.toList.map Char.toLower))

/-- JS `a || b` for an optional string `a`: the empty string is falsy. -/
def strOrD (a : Option String) (b : String) : String :=
  match a with
  | some s => if s.isEmpty then b else s
  | none => b

/-- JS `a || b` where both operands are optional strings. -/
def strOrOpt (a b : Option String) : Option String :=
  match a with
  | some s => if s.isEmpty then b else some s
  | none => b

/-! ### Raw data model (JSON:API records) -/

/-- Attributes of a raw route record (`long_name`, `short_name`). -/
structure RouteAttrs where
  long_name : Option String
  short_name : Option String
deriving DecidableEq, Repr

/-- A raw route record: `{id, attributes}`; either may be missing. -/
structure RawRoute where
  id : Option String
  attributes : Option RouteAttrs
deriving DecidableEq, Repr

/-- Attributes of a raw stop record. -/
structure StopAttrs where
  name : String
  latitude : Option ℚ
  longitude : Option ℚ
  wheelchair_boarding : Option ℤ
deriving DecidableEq, Repr

/-- A raw stop record. -/
structure RawStop where
  id : String
  attributes : StopAttrs
deriving DecidableEq, Repr

/-- A JSON:API envelope for a routes response: `{ data: [...] }` with the
`data` field possibly missing/falsy. -/
structure RoutesJson where
  data : Option (List RawRoute)
deriving DecidableEq, Repr

/-- A JSON:API envelope for a stops response. -/
structure StopsJson where
  data : Option (List RawStop)
deriving DecidableEq, Repr

/-! ### Route classifier (`getLineInfo`, lines 77-118) -/

/-- Display attributes of a classified line (entry of `MBTA_LINES`). -/
structure LineInfo where
  emoji : String
  color : String
deriving DecidableEq, Repr

def lineRed : LineInfo := ⟨"🔴", "#DA291C"⟩
def lineOrange : LineInfo := ⟨"🟠", "#ED8B00"⟩
def lineBlue : LineInfo := ⟨"🔵", "#003DA5"⟩
def lineGreenB : LineInfo := ⟨"B🟢", "#00843D"⟩
def lineGreenC : LineInfo := ⟨"C🟢", "#00843D"⟩
def lineGreenD : LineInfo := ⟨"D🟢", "#00843D"⟩
def lineGreenE : LineInfo := ⟨"E🟢", "#00843D"⟩
def lineMattapan : LineInfo := ⟨"M🔴", "#FFC72C"⟩

/-- `getLineInfo(route)`: classify a raw route record to a display line,
or `none` when the record is missing/unrecognized.  Direct translation of
the `if` chain at lines 87-117 of `mbtaApi.js`. -/
def getLineInfo (route : Option RawRoute) : Option LineInfo :=
  match route with
  | none => none
  | some r =>
    match r.attributes with
    | none => none
    | some attrs =>
      let routeName := strOrD attrs.long_name (strOrD attrs.short_name "")
      let routeId := r.id.getD ""
      if strIncludes routeName "Red" || strIncludes routeId "Red" then some lineRed
      else if strIncludes routeName "Orange" || strIncludes routeId "Orange" then
        some lineOrange
      else if strIncludes routeName "Blue" || strIncludes routeId "Blue" then
        some lineBlue
      else if strIncludes routeName "Green" && strIncludes routeName "B" then
        some lineGreenB
      else if strIncludes routeName "Green" && strIncludes routeName "C" then
        some lineGreenC
      else if strIncludes routeName "Green" && strIncludes routeName "D" then
        some lineGreenD
      else if strIncludes routeName "Green" && strIncludes routeName "E" then
        some lineGreenE
      else if strIncludes routeName "Mattapan" || strIncludes routeId "Mattapan" then
        some lineMattapan
      else if strIncludes routeName "Green" || strIncludes routeId "Green" then
        some lineGreenB
      else none

/-- Classifier as described by the specification (§4.2): first matching
rule in the fixed priority order Red, Orange, Blue, Green-B, Green-C,
Green-D, Green-E, Mattapan; Green-branch rules require both "Green" and
the branch letter in the name; an unbranched Green route (name or id)
defaults to branch B; a record with missing attributes yields no match. -/
def claimClassify (route : Option RawRoute) : Option LineInfo :=
  match route with
  | none => none
  | some r =>
    match r.attributes with
    | none => none
    | some attrs =>
      let nm := strOrD attrs.long_name (strOrD attrs.short_name "")
      let rid := r.id.getD ""
      let nameOrId (fam : String) : Bool := strIncludes nm fam || strIncludes rid fam
      let greenBranch (letter : String) : Bool :=
        strIncludes nm "Green" && strIncludes nm letter
      if nameOrId "Red" then some lineRed
      else if nameOrId "Orange" then some lineOrange
      else if nameOrId "Blue" then some lineBlue
      else if greenBranch "B" then some lineGreenB
      else if greenBranch "C" then some lineGreenC
      else if greenBranch "D" then some lineGreenD
      else if greenBranch "E" then some lineGreenE
      else if nameOrId "Mattapan" then some lineMattapan
      else if nameOrId "Green" then some lineGreenB
      else none

/-! ### Retrying fetcher (`makeApiCall`, lines 25-60)

One network attempt is an oracle value: either an HTTP response with a
status and a body (whose JSON parse may fail), or a rejected fetch. -/

/-- Errors `makeApiCall` can throw. -/
inductive ApiError where
  | httpStatus (status : ℕ)
  | network (msg : String)
  | parse (msg : String)
deriving DecidableEq, Repr

/-- The observable outcome of one `fetch` attempt. -/
inductive AttemptOutcome (β : Type) where
  | reply (status : ℕ) (body : Except String β)
  | netError (msg : String)
deriving Repr

/-- JS `response.ok`: status in the inclusive range 200-299. -/
def statusOk (s : ℕ) : Bool := 200 ≤ s && s ≤ 299

/-- `Math.pow(2, attempt) * 1000`: the backoff delay in milliseconds. -/
def attemptDelayMs (attempt : ℕ) : ℕ := 2 ^ attempt * 1000

/-- The error an attempt's outcome makes the loop body throw (`none` when
the attempt succeeds or is a 429, neither of which throws). -/
def attemptError {β : Type} : AttemptOutcome β → Option ApiError
  | .netError m => some (.network m)
  | .reply status body =>
    if status == 429 then none
    else if statusOk status then
      match body with
      | .ok _ => none
      | .error m => some (.parse m)
    else some (.httpStatus status)

/-- An attempt that does not return a parsed body: it is rate-limited or
throws. -/
def attemptFails {β : Type} (o : AttemptOutcome β) : Bool :=
  match o with
  | .reply status body =>
    status == 429 || !(statusOk status) ||
      (match body with | .ok _ => false | .error _ => true)
  | .netError _ => true

/-- The retry loop of `makeApiCall`, from iteration `attempt` with
`remaining` iterations left (`remaining = maxRetries - attempt + 1`).
Returns the loop's result — `ok (some d)` a parsed body, `ok none` the
implicit `undefined` when the loop falls off its end, `error e` a
re-thrown error — paired with the list of backoff delays performed, in
milliseconds. -/
def makeApiCallGo {β : Type} (outcomes : ℕ → AttemptOutcome β) :
    ℕ → ℕ → Except ApiError (Option β) × List ℕ
  | _, 0 => (.ok none, [])
  | attempt, remaining + 1 =>
    let retryOrThrow : ApiError → Except ApiError (Option β) × List ℕ := fun e =>
      if remaining == 0 then (.error e, [])
      else
        let rest := makeApiCallGo outcomes (attempt + 1) remaining
        (rest.1, attemptDelayMs attempt :: rest.2)
    match outcomes attempt with
    | .netError m => retryOrThrow (.network m)
    | .reply status body =>
      if status == 429 then
        -- wait 2^attempt seconds, then `continue` (even on the last attempt)
        let rest := makeApiCallGo outcomes (attempt + 1) remaining
        (rest.1, attemptDelayMs attempt :: rest.2)
      else if statusOk status then
        match body with
        | .ok d => (.ok (some d), [])
        | .error m => retryOrThrow (.parse m)
      else retryOrThrow (.httpStatus status)

/-- `makeApiCall(url, maxRetries = 2)`, with the network abstracted into
`outcomes` (the outcome of each numbered attempt). -/
def makeApiCall {β : Type} (outcomes : ℕ → AttemptOutcome β)
    (maxRetries : ℕ := 2) : Except ApiError (Option β) × List ℕ :=
  makeApiCallGo outcomes 1 maxRetries

/-! ### Route cache (`getRoutesData`, lines 16-19 and 121-138) -/

/-- The module-level cache cell pair (`routesCache`,
`routesCacheTimestamp`); `none` covers both the initial `null` and a
stored `undefined`, the two falsy states. -/
structure CacheState where
  routesCache : Option RoutesJson
  routesCacheTimestamp : ℤ
deriving DecidableEq, Repr

/-- `CACHE_DURATION = 5 * 60 * 1000` milliseconds. -/
def CACHE_DURATION : ℤ := 5 * 60 * 1000

/-- `getRoutesData()`: `now` is `Date.now()` and `fetched` the outcome the
retrying fetcher would observe if called.  Returns (result, new cache
state, whether a network request was issued). -/
def getRoutesData (now : ℤ) (st : CacheState)
    (fetched : Except ApiError (Option RoutesJson)) :
    Except ApiError (Option RoutesJson) × CacheState × Bool :=
  match st.routesCache with
  | some c =>
    if now - st.routesCacheTimestamp < CACHE_DURATION then (.ok (some c), st, false)
    else
      match fetched with
      | .error e => (.error e, st, true)
      | .ok d => (.ok d, ⟨d, now⟩, true)
  | none =>
    match fetched with
    | .error e => (.error e, st, true)
    | .ok d => (.ok d, ⟨d, now⟩, true)

/-! ### Station grouping (`createStationKey` and lines 184-203) -/

/-- JS `Number.prototype.toFixed(6)` as an abstract value: the sign bit
and the magnitude rounded half-up to six decimals (ties round away from
zero), i.e. `⌊|q| * 10^6 + 1/2⌋` computed on the numerator and
denominator.  Two coordinates produce equal `toFixed(6)` strings exactly
when these pairs are equal. -/
def toFixed6 (q : ℚ) : Bool × ℕ :=
  (decide (q.num < 0), (2 * q.num.natAbs * 1000000 + q.den) / (2 * q.den))

/-- The key type of the grouping `Map`. -/
abbrev StationKey := String × (Bool × ℕ) × (Bool × ℕ)

/-- The template-string key `` `${name}_${lat}_${lon}` ``. -/
def createStationKey (name : String) (la lo : ℚ) : StationKey :=
  (name, toFixed6 la, toFixed6 lo)

/-- A deduplicated station group: the stops sharing one key, plus the
fields copied from the stop that created the group (lines 193-199). -/
structure StationGroup where
  stops : List RawStop
  name : String
  latitude : ℚ
  longitude : ℚ
  wheelchair_accessible : Bool
deriving DecidableEq, Repr

/-- JS truthiness of `stop.attributes.latitude && stop.attributes.longitude`
(line 188): both present and nonzero. -/
def truthyCoords (s : RawStop) : Bool :=
  match s.attributes.latitude, s.attributes.longitude with
  | some la, some lo => !(la == 0) && !(lo == 0)
  | _, _ => false

/-- `Map.set` semantics on the keyed group list: push the stop onto the
existing group for `k`, else append `(k, g0)` (the freshly created group
already holding the stop, collapsing create-then-push). -/
def updateOrAppend (k : StationKey) (g0 : StationGroup) (s : RawStop) :
    List (StationKey × StationGroup) → List (StationKey × StationGroup)
  | [] => [(k, g0)]
  | (k', g) :: rest =>
    if k' = k then (k', { g with stops := g.stops ++ [s] }) :: rest
    else (k', g) :: updateOrAppend k g0 s rest

/-- One iteration of the grouping `forEach` (lines 189-203).  The
fall-through case is unreachable: callers filter on `truthyCoords`
first, so the key is never built from a missing coordinate. -/
def addToGroups (acc : List (StationKey × StationGroup)) (s : RawStop) :
    List (StationKey × StationGroup) :=
  match s.attributes.latitude, s.attributes.longitude with
  | some la, some lo =>
    updateOrAppend (createStationKey s.attributes.name la lo)
      { stops := [s], name := s.attributes.name, latitude := la, longitude := lo,
        wheelchair_accessible := s.attributes.wheelchair_boarding == some 1 } s acc
  | _, _ => acc

/-- Lines 187-203: filter to truthy coordinates, group by station key;
`Array.from(stationGroups.values())` preserves key insertion order. -/
def groupStops (stops : List RawStop) : List StationGroup :=
  ((stops.filter truthyCoords).foldl addToGroups []).map (·.2)

/-! ### Per-stop route classification (lines 246-281) -/

/-- The route object pushed at lines 264-269: `{id, name, ...lineInfo}`. -/
structure RouteInfo where
  id : Option String
  name : Option String
  emoji : String
  color : String
deriving DecidableEq, Repr

/-- Lines 264-268: build the route object from a classified route. -/
def mkRouteInfo (r : RawRoute) (li : LineInfo) : RouteInfo :=
  { id := r.id,
    name := match r.attributes with
      | some a => strOrOpt a.long_name a.short_name
      | none => none,
    emoji := li.emoji, color := li.color }

/-- The body of the per-stop `try` (lines 247-280) including its `catch`:
classify the routes of one stop's response, degrading every failure —
a thrown fetch error, an `undefined` response (whose `.data` access
throws, caught by the same `catch`), or a missing `data` field — to the
empty route list. -/
def classifyStopRoutes (resp : Except ApiError (Option RoutesJson)) : List RouteInfo :=
  match resp with
  | .error _ => []
  | .ok none => []
  | .ok (some rj) =>
    match rj.data with
    | none => []
    | some routes =>
      routes.foldl (fun acc r =>
        match getLineInfo (some r) with
        | some li => acc ++ [mkRouteInfo r li]
        | none => acc) []

/-- `Map.set` on the stop-id → routes map: replace in place or append. -/
def mapSetStr (k : String) (v : List RouteInfo) :
    List (String × List RouteInfo) → List (String × List RouteInfo)
  | [] => [(k, v)]
  | (k', v') :: rest =>
    if k' = k then (k, v) :: rest else (k', v') :: mapSetStr k v rest

/-- `Map.get` on the stop-id → routes map. -/
def mapGet (m : List (String × List RouteInfo)) (k : String) : Option (List RouteInfo) :=
  (m.find? (fun p => decide (p.1 = k))).map (·.2)

/-- The sequential per-stop fetch loop (lines 244-281): every listed stop
id receives an entry, failures included. -/
def buildStopRoutesMap (oracle : String → Except ApiError (Option RoutesJson))
    (ids : List String) : List (String × List RouteInfo) :=
  ids.foldl (fun m sid => mapSetStr sid (classifyStopRoutes (oracle sid)) m) []

/-! ### Station assembly and the name merge (lines 286-366) -/

/-- The output record (lines 314-323). -/
structure Station (α : Type) where
  id : String
  name : String
  latitude : ℚ
  longitude : ℚ
  distance : α
  wheelchair_accessible : Bool
  routes : List RouteInfo
  hasRouteData : Bool
deriving DecidableEq, Repr

/-- `Map.set` on a route-id keyed map: overwrite in place or append. -/
def mapSetRoute (k : Option String) (v : RouteInfo) :
    List (Option String × RouteInfo) → List (Option String × RouteInfo)
  | [] => [(k, v)]
  | (k', v') :: rest =>
    if k' = k then (k, v) :: rest else (k', v') :: mapSetRoute k v rest

/-- Lines 286-328: build the Station for one ranked group, collecting the
deduplicated routes of its stops from the stop-routes map.  The group's
stop list is nonempty by construction, so `stops[0].id` is its head's id. -/
def buildStation {α : Type} (m : List (String × List RouteInfo))
    (p : StationGroup × α) : Station α :=
  let g := p.1
  let hasRouteData := g.stops.any (fun s => (mapGet m s.id).isSome)
  let allRoutes : List (Option String × RouteInfo) :=
    if hasRouteData then
      g.stops.foldl (fun ar s =>
        ((mapGet m s.id).getD []).foldl (fun ar r => mapSetRoute r.id r ar) ar) []
    else []
  { id := (g.stops.head?.map (·.id)).getD "",
    name := g.name, latitude := g.latitude, longitude := g.longitude,
    distance := p.2, wheelchair_accessible := g.wheelchair_accessible,
    routes := allRoutes.map (·.2), hasRouteData := hasRouteData }

/-- Lines 341-350: union the duplicate station's routes into the existing
one, keyed by route id, keeping the existing entry on a conflict. -/
def routesUnion (es ss : List RouteInfo) : List RouteInfo :=
  let m := es.foldl (fun m r => mapSetRoute r.id r m) []
  let m := ss.foldl (fun m r =>
    if m.any (fun p => decide (p.1 = r.id)) then m else m ++ [(r.id, r)]) m
  m.map (·.2)

/-- Lines 340-362: merge a later duplicate `s` into the existing station
`e`: routes unioned, the strictly closer distance (with its coordinate)
wins, wheelchair accessibility is OR'd. -/
def mergeStation {α : Type} [LinearOrder α] (e s : Station α) : Station α :=
  let e1 := { e with routes := routesUnion e.routes s.routes }
  let e2 :=
    if s.distance < e1.distance then
      { e1 with distance := s.distance, latitude := s.latitude, longitude := s.longitude }
    else e1
  if s.wheelchair_accessible then { e2 with wheelchair_accessible := true } else e2

/-- One step of the `reduce` (lines 331-366): find the first station with
the same case-insensitively trimmed name and merge into it, else push. -/
def mergeInto {α : Type} [LinearOrder α] :
    List (Station α) → Station α → List (Station α)
  | [], s => [s]
  | e :: rest, s =>
    if lowerTrim e.name = lowerTrim s.name then mergeStation e s :: rest
    else e :: mergeInto rest s

/-- The duplicate-name merge (lines 331-366). -/
def mergeByName {α : Type} [LinearOrder α] (l : List (Station α)) : List (Station α) :=
  l.foldl mergeInto []

/-! ### Ranking and the orchestrator (lines 141-374) -/

/-- The comparator `(a, b) => a.distance - b.distance` as an ordering. -/
def distLe {α : Type} [LinearOrder α] (a b : StationGroup × α) : Bool :=
  decide (a.2 ≤ b.2)

/-- Lines 206-222: attach distances, filter by the radius, sort ascending
by distance, keep the three closest. -/
def processStations {α : Type} [LinearOrder α] (dist : StationGroup → α)
    (radius : α) (groups : List StationGroup) : List (StationGroup × α) :=
  ((((groups.map (fun g => (g, dist g))).filter
    (fun p => decide (p.2 ≤ radius))).mergeSort distLe).take 3)

/-- Lines 234-239: the stop ids of the ranked groups, in order. -/
def allStopIds {α : Type} (top : List (StationGroup × α)) : List String :=
  (top.map (fun p => p.1.stops.map (·.id))).flatten

/-- A failure `fetchNearbyStations` re-throws (lines 370-373). -/
inductive JsFailure where
  | api (e : ApiError)
  | typeError
  | noStationData
deriving DecidableEq, Repr

/-- The whole resolution (lines 141-374), generic in the ordered type of
distances.  `routesResp` and `stopsResp` are the outcomes of the two
top-level fetches (`ok none` models `makeApiCall` resolving with
`undefined`, whose later property access throws a TypeError);
`stopOracle` gives each per-stop fetch outcome.  The `routeLineMap`
built at lines 151-164 is dead code — it is only logged — and is not
modelled. -/
def resolveStations {α : Type} [LinearOrder α] (dist : StationGroup → α)
    (radius : α)
    (routesResp : Except ApiError (Option RoutesJson))
    (stopsResp : Except ApiError (Option StopsJson))
    (stopOracle : String → Except ApiError (Option RoutesJson)) :
    Except JsFailure (List (Station α)) :=
  match routesResp with
  | .error e => .error (.api e)
  | .ok none => .error .typeError
  | .ok (some _) =>
    match stopsResp with
    | .error e => .error (.api e)
    | .ok none => .error .typeError
    | .ok (some sj) =>
      match sj.data with
      | none => .error .noStationData
      | some stops =>
        let top := processStations dist radius (groupStops stops)
        let m := buildStopRoutesMap stopOracle (allStopIds top)
        .ok (mergeByName (top.map (buildStation m)))

/-! ### Haversine distance (`calculateDistance`, lines 63-74) -/

/-- JS `Math.atan2(y, x)`. -/
noncomputable def atan2 (y x : ℝ) : ℝ :=
  if 0 < x then Real.arctan (y / x)
  else if x < 0 then
    (if 0 ≤ y then Real.arctan (y / x) + Real.pi else Real.arctan (y / x) - Real.pi)
  else
    (if 0 < y then Real.pi / 2 else if y < 0 then -(Real.pi / 2) else 0)

/-- `calculateDistance(lat1, lon1, lat2, lon2)`: haversine great-circle
distance in miles (Earth radius 6371 km, mile factor 0.621371). -/
noncomputable def calculateDistance (lat1 lon1 lat2 lon2 : ℝ) : ℝ :=
  let dLat := (lat2 - lat1) * Real.pi / 180
  let dLon := (lon2 - lon1) * Real.pi / 180
  let a := Real.sin (dLat / 2) * Real.sin (dLat / 2) +
    Real.cos (lat1 * Real.pi / 180) * Real.cos (lat2 * Real.pi / 180) *
    (Real.sin (dLon / 2) * Real.sin (dLon / 2))
  let c := 2 * atan2 (Real.sqrt a) (Real.sqrt (1 - a))
  6371 * c * 0.621371

/-- `fetchNearbyStations(latitude, longitude, radius = 1.25)` with the
network abstracted: the resolution instantiated at real-valued haversine
distances from the query coordinate. -/
noncomputable def fetchNearbyStations (qlat qlon radius : ℝ)
    (routesResp : Except ApiError (Option RoutesJson))
    (stopsResp : Except ApiError (Option StopsJson))
    (stopOracle : String → Except ApiError (Option RoutesJson)) :
    Except JsFailure (List (Station ℝ)) :=
  resolveStations
    (fun g => calculateDistance qlat qlon (g.latitude : ℝ) (g.longitude : ℝ))
    radius routesResp stopsResp stopOracle

/-! ## Theorems settling the claims -/

/-- C6: the classifier maps a Green route with a branch letter in its name
to that branch's Line (first matching rule winning in the fixed priority
order Red, Orange, Blue, Green-B, Green-C, Green-D, Green-E, Mattapan —
`claimClassify` is that rule list written from the spec's words), an
unbranched Green route to Green-B by default, and a record with an
unrecognized name or missing attributes to no match, without failing. -/
theorem C6_route_classifier :
    (∀ r, getLineInfo r = claimClassify r)
    ∧ getLineInfo (some ⟨some "Green-B",
        some ⟨some "Green Line B Branch", none⟩⟩) = some lineGreenB
    ∧ getLineInfo (some ⟨some "Green",
        some ⟨some "Green Line", none⟩⟩) = some lineGreenB
    ∧ getLineInfo (some ⟨some "Shuttle",
        some ⟨some "Foxboro Event Shuttle", none⟩⟩) = none
    ∧ getLineInfo (some ⟨some "Red", none⟩) = none
    ∧ getLineInfo none = none :=
  ⟨fun r => rfl, by decide, by decide, by decide, rfl, rfl⟩

/-- C5: a fetch receiving HTTP 429 on the first attempt and a parseable
2xx response on the second returns the parsed second-attempt body, after
one backoff delay of 2^1 seconds (2000 ms) between the attempts. -/
theorem C5_retry_after_429 {β : Type} (b : β) (body429 : Except String β) :
    makeApiCall (fun i => if i == 1 then .reply 429 body429 else .reply 200 (.ok b)) 2
      = (.ok (some b), [2000]) :=
  rfl

/-- C3 counterexample: when both attempts receive HTTP 429, `makeApiCall`
performs its two backoff delays and then completes normally with no
result (the loop falls off its end), instead of surfacing an error. -/
theorem C3_counterexample_all_429 :
    makeApiCall (fun _ => AttemptOutcome.reply 429 (Except.error "rate limited") (β := ℕ)) 2
      = (.ok none, [2000, 4000]) :=
  rfl

/-- Helper for C3: the loop from `attempt` with `remaining` attempts left,
all of which fail, ends with the final attempt's thrown error — or, when
the final attempt is rate-limited, falls through and returns no result. -/
theorem makeApiCallGo_all_fail {β : Type} (outcomes : ℕ → AttemptOutcome β) :
    ∀ (remaining attempt : ℕ), 0 < remaining →
    (∀ i, attempt ≤ i → i < attempt + remaining → attemptFails (outcomes i) = true) →
    (makeApiCallGo outcomes attempt remaining).1 =
      match attemptError (outcomes (attempt + remaining - 1)) with
      | some e => .error e
      | none => .ok none := by
  intro remaining
  induction remaining with
  | zero => intro attempt h; exact absurd h (by simp)
  | succ r ih =>
    intro attempt _ hfail
    have hcur : attemptFails (outcomes attempt) = true :=
      hfail attempt le_rfl (by omega)
    rcases r.eq_zero_or_pos with hr | hr
    · subst hr
      simp only [makeApiCallGo]
      cases hco : outcomes attempt with
      | netError m =>
        simp [hco, attemptError]
      | reply status body =>
        simp only [attemptFails, hco] at hcur
        by_cases h429 : (status == 429) = true
        · simp [h429, hco, makeApiCallGo, attemptError]
        · by_cases hok : statusOk status = true
          · cases body with
            | ok d => simp [h429, hok] at hcur
            | error m => simp [h429, hok, hco, attemptError]
          · simp [h429, hok, hco, attemptError,
              Bool.not_eq_true (statusOk status) ▸ hok]
    · have hnext : ∀ i, attempt + 1 ≤ i → i < attempt + 1 + r →
          attemptFails (outcomes i) = true := by
        intro i h1 h2; exact hfail i (by omega) (by omega)
      have htail := ih (attempt + 1) hr hnext
      have hidx : attempt + 1 + r - 1 = attempt + (r + 1) - 1 := by omega
      rw [hidx] at htail
      simp only [makeApiCallGo]
      cases hco : outcomes attempt with
      | netError m =>
        have : (r == 0) = false := by simp [Nat.pos_iff_ne_zero.mp hr]
        simp [this, htail]
      | reply status body =>
        simp only [attemptFails, hco] at hcur
        by_cases h429 : (status == 429) = true
        · simp [h429, htail]
        · by_cases hok : statusOk status = true
          · cases body with
            | ok d => simp [h429, hok] at hcur
            | error m =>
              have : (r == 0) = false := by simp [Nat.pos_iff_ne_zero.mp hr]
              simp [h429, hok, this, htail]
          · have : (r == 0) = false := by simp [Nat.pos_iff_ne_zero.mp hr]
            simp [h429, hok, this, htail]

/-- C3 amended: when every attempt of `makeApiCall` fails, the outcome is
decided by the final attempt — a thrown failure (network error, non-2xx
non-429 status, or parse failure) propagates as that error, but a final
attempt receiving HTTP 429 makes `makeApiCall` complete normally with no
result (`undefined`) instead of surfacing an error. -/
theorem C3_amended_exhausted_retries {β : Type} (outcomes : ℕ → AttemptOutcome β)
    (maxRetries : ℕ) (hpos : 0 < maxRetries)
    (hfail : ∀ i, 1 ≤ i → i ≤ maxRetries → attemptFails (outcomes i) = true) :
    (makeApiCall outcomes maxRetries).1 =
      match attemptError (outcomes maxRetries) with
      | some e => .error e
      | none => .ok none := by
  have h := makeApiCallGo_all_fail outcomes maxRetries 1 hpos
    (fun i h1 h2 => hfail i h1 (by omega))
  have hidx : 1 + maxRetries - 1 = maxRetries := by omega
  rw [hidx] at h
  exact h

/-- Witness for C3 amended: two network failures surface the final error. -/
theorem C3_amended_exhausted_retries_witness :
    (makeApiCall (fun _ => AttemptOutcome.netError (β := ℕ) "down") 2).1 =
      .error (.network "down") :=
  C3_amended_exhausted_retries (fun _ => AttemptOutcome.netError "down") 2
    (by decide) (fun i h1 h2 => rfl)

/-- C7: `getRoutesData` returns the cached route list without issuing a
network request exactly when a prior fetch is stored and its age is
strictly below the 5-minute TTL; otherwise it performs the fetch and, on
success, stores the fresh data with the current timestamp and returns
it (a thrown fetch error propagates and leaves the cache unchanged). -/
theorem C7_route_cache (now : ℤ) (st : CacheState)
    (fetched : Except ApiError (Option RoutesJson)) :
    ((getRoutesData now st fetched).2.2 = false ↔
      st.routesCache.isSome = true ∧ now - st.routesCacheTimestamp < CACHE_DURATION)
    ∧ ((getRoutesData now st fetched).2.2 = false →
        (getRoutesData now st fetched).1 = .ok st.routesCache
        ∧ (getRoutesData now st fetched).2.1 = st)
    ∧ ((getRoutesData now st fetched).2.2 = true →
        (getRoutesData now st fetched).1 = fetched
        ∧ (getRoutesData now st fetched).2.1 =
            (match fetched with
             | .error _ => st
             | .ok d => ⟨d, now⟩)) := by
  unfold getRoutesData
  cases hc : st.routesCache with
  | none =>
    cases fetched with
    | error e => simp [hc]
    | ok d => simp [hc]
  | some c =>
    by_cases ht : now - st.routesCacheTimestamp < CACHE_DURATION
    · simp [hc, ht]
    · cases fetched with
      | error e => simp [hc, ht]
      | ok d => simp [hc, ht]

/-! ### Invariants of the grouping fold -/

/-- `updateOrAppend` preserves a groupwise property: the fresh group has
it and pushing the stop onto an existing group keeps it. -/
theorem updateOrAppend_forall {P : StationGroup → Prop}
    {k : StationKey} {g0 : StationGroup} {s : RawStop}
    (hg0 : P g0)
    (hpush : ∀ g, P g → P { g with stops := g.stops ++ [s] }) :
    ∀ (m : List (StationKey × StationGroup)),
      (∀ p ∈ m, P p.2) → ∀ p ∈ updateOrAppend k g0 s m, P p.2 := by
  intro m
  induction m with
  | nil =>
    intro _ p hp
    simp only [updateOrAppend, List.mem_singleton] at hp
    subst hp
    exact hg0
  | cons q rest ih =>
    intro hall p hp
    obtain ⟨k', g⟩ := q
    simp only [updateOrAppend] at hp
    by_cases hk : k' = k
    · rw [if_pos hk] at hp
      rcases List.mem_cons.mp hp with h | h
      · subst h
        exact hpush g (hall (k', g) (List.mem_cons_self _ _))
      · exact hall p (List.mem_cons_of_mem _ h)
    · rw [if_neg hk] at hp
      rcases List.mem_cons.mp hp with h | h
      · subst h
        exact hall (k', g) (List.mem_cons_self _ _)
      · exact ih (fun q hq => hall q (List.mem_cons_of_mem _ hq)) p h

/-- The grouping fold preserves a groupwise property across a stop list
whose members satisfy `Q`. -/
theorem foldl_addToGroups_forall {P : StationGroup → Prop} {Q : RawStop → Prop}
    (hfresh : ∀ s : RawStop, Q s → ∀ la lo : ℚ,
        P { stops := [s], name := s.attributes.name, latitude := la, longitude := lo,
            wheelchair_accessible := s.attributes.wheelchair_boarding == some 1 })
    (hpush : ∀ (g : StationGroup) (s : RawStop), Q s → P g →
        P { g with stops := g.stops ++ [s] }) :
    ∀ (l : List RawStop) (acc : List (StationKey × StationGroup)),
      (∀ s ∈ l, Q s) → (∀ p ∈ acc, P p.2) →
      ∀ p ∈ l.foldl addToGroups acc, P p.2 := by
  intro l
  induction l with
  | nil => intro acc _ hacc p hp; exact hacc p hp
  | cons s rest ih =>
    intro acc hl hacc p hp
    have hs : Q s := hl s (List.mem_cons_self _ _)
    have hrest : ∀ t ∈ rest, Q t := fun t ht => hl t (List.mem_cons_of_mem _ ht)
    refine ih (addToGroups acc s) hrest ?_ p hp
    intro q hq
    unfold addToGroups at hq
    cases hla : s.attributes.latitude with
    | none => rw [hla] at hq; exact hacc q hq
    | some la =>
      cases hlo : s.attributes.longitude with
      | none => rw [hla, hlo] at hq; exact hacc q hq
      | some lo =>
        rw [hla, hlo] at hq
        exact updateOrAppend_forall (hfresh s hs la lo)
          (fun g hg => hpush g s hs hg) acc hacc q hq

/-- Every group produced by `groupStops` satisfies any property holding
of a fresh single-stop group (with truthy coordinates) and preserved by
pushing a further truthy-coordinate stop. -/
theorem groupStops_forall {P : StationGroup → Prop}
    (hfresh : ∀ s : RawStop, truthyCoords s = true → ∀ la lo : ℚ,
        P { stops := [s], name := s.attributes.name, latitude := la, longitude := lo,
            wheelchair_accessible := s.attributes.wheelchair_boarding == some 1 })
    (hpush : ∀ (g : StationGroup) (s : RawStop), truthyCoords s = true → P g →
        P { g with stops := g.stops ++ [s] }) :
    ∀ (stops : List RawStop), ∀ g ∈ groupStops stops, P g := by
  intro stops g hg
  obtain ⟨p, hp, rfl⟩ := List.mem_map.mp hg
  exact foldl_addToGroups_forall hfresh hpush (stops.filter truthyCoords) []
    (fun s hs => (List.mem_filter.mp hs).2) (by simp) p hp

/-! ### C2: group accessibility comes from the first stop only -/

/-- A raw platform stop at Park Street reporting not-accessible. -/
def cexStop0 : RawStop :=
  { id := "70200",
    attributes := { name := "Park Street", latitude := some (Rat.divInt 423554 10000),
                    longitude := some (Rat.divInt (-710640) 10000), wheelchair_boarding := some 0 } }

/-- A raw platform stop at Park Street (same name and coordinates as
`cexStop0`) reporting accessible. -/
def cexStop1 : RawStop :=
  { id := "70201",
    attributes := { name := "Park Street", latitude := some (Rat.divInt 423554 10000),
                    longitude := some (Rat.divInt (-710640) 10000), wheelchair_boarding := some 1 } }

/-- C2 counterexample: when the stop reporting `wheelchair_boarding = 1`
is not the first of its group, the group — and the Station built from
it — reports `wheelchair_accessible = false`, although a constituent
stop is accessible.  The claim's "regardless of which stop in the group
appears first" is false on the code. -/
theorem C2_counterexample_first_stop_wins :
    ((groupStops [cexStop0, cexStop1]).map
        (fun g => (g.stops.map (fun s => s.attributes.wheelchair_boarding),
                   g.wheelchair_accessible))
      = [([some 0, some 1], false)])
    ∧ ((groupStops [cexStop0, cexStop1]).map
        (fun g => (buildStation [] (g, (0 : ℚ))).wheelchair_accessible)
      = [false]) := by
  constructor
  · decide
  · decide

/-- C2 amended: a group's `wheelchair_accessible` (copied unchanged into
the Station built from it) is decided solely by the group's FIRST stop
in fetched order: it is true exactly when that stop reports
`wheelchair_boarding = 1`; later stops of the group never update it. -/
theorem C2_amended_accessibility_from_first_stop
    (stops : List RawStop) (g : StationGroup) (hg : g ∈ groupStops stops) :
    g.wheelchair_accessible =
      ((g.stops.head?.map
        (fun s => s.attributes.wheelchair_boarding == some 1)).getD false) := by
  have hP := groupStops_forall
    (P := fun g => ∃ s0 rest, g.stops = s0 :: rest ∧
      g.wheelchair_accessible = (s0.attributes.wheelchair_boarding == some 1))
    (fun s _ la lo => ⟨s, [], rfl, rfl⟩)
    (fun g' s _ h => by
      obtain ⟨s0, rest, hst, hw⟩ := h
      exact ⟨s0, rest ++ [s], by simp [hst], hw⟩)
    stops g hg
  obtain ⟨s0, rest, hst, hw⟩ := hP
  rw [hst, hw]
  rfl

/-- Witness for C2 amended at the concrete two-stop group. -/
theorem C2_amended_accessibility_witness :
    ∃ g ∈ groupStops [cexStop0, cexStop1],
      g.wheelchair_accessible =
        ((g.stops.head?.map
          (fun s => s.attributes.wheelchair_boarding == some 1)).getD false) := by
  refine ⟨(groupStops [cexStop0, cexStop1]).head (by decide), by decide, ?_⟩
  exact C2_amended_accessibility_from_first_stop [cexStop0, cexStop1] _ (by decide)

/-! ### C10: stops with missing or zero coordinates are dropped -/

/-- `Except` success as a Bool (the resolution completed normally). -/
def isOkE {ε β : Type} : Except ε β → Bool
  | .ok _ => true
  | .error _ => false

/-- A legitimate stop lying exactly on the equator (latitude 0). -/
def equatorStop : RawStop :=
  { id := "eq",
    attributes := { name := "Equator", latitude := some 0,
                    longitude := some 10, wheelchair_boarding := some 1 } }

/-- A legitimate stop lying exactly on the prime meridian (longitude 0). -/
def primeMeridianStop : RawStop :=
  { id := "pm",
    attributes := { name := "Greenwich", latitude := some 51,
                    longitude := some 0, wheelchair_boarding := some 1 } }

/-- C10: a raw stop whose latitude or longitude is missing or exactly 0
is silently excluded before grouping (so the station key is only ever
built from present coordinate values — `addToGroups` constructs it inside
the `some la, some lo` branch), the resolution never fails on such
stops, and a stop exactly on the equator or prime meridian is dropped
too. -/
theorem C10_coordinate_truthiness_filter (stops : List RawStop) :
    (∀ g ∈ groupStops stops, ∀ s ∈ g.stops, truthyCoords s = true)
    ∧ (∀ s ∈ stops,
        (s.attributes.latitude = none ∨ s.attributes.latitude = some 0 ∨
         s.attributes.longitude = none ∨ s.attributes.longitude = some 0) →
        s ∉ stops.filter truthyCoords)
    ∧ (∀ (qlat qlon radius : ℝ) (rj : RoutesJson)
        (oracle : String → Except ApiError (Option RoutesJson)),
        isOkE (fetchNearbyStations qlat qlon radius (.ok (some rj))
          (.ok (some ⟨some stops⟩)) oracle) = true)
    ∧ groupStops [equatorStop, primeMeridianStop] = [] := by
  refine ⟨?_, ?_, ?_, by decide⟩
  · exact groupStops_forall
      (P := fun g => ∀ s ∈ g.stops, truthyCoords s = true)
      (fun s hs la lo => by
        intro t ht
        rw [List.mem_singleton] at ht
        subst ht
        exact hs)
      (fun g' s hs h => by
        intro t ht
        rcases List.mem_append.mp ht with h1 | h1
        · exact h t h1
        · rw [List.mem_singleton] at h1; subst h1; exact hs)
      stops
  · intro s _ hbad hmem
    have ht := (List.mem_filter.mp hmem).2
    unfold truthyCoords at ht
    rcases hbad with h | h | h | h <;> rw [h] at ht <;>
      first
      | simp at ht
      | (cases hlo : s.attributes.longitude <;> rw [hlo] at ht <;> simp at ht)
      | (cases hla : s.attributes.latitude <;> rw [hla] at ht <;> simp at ht)
  · intro qlat qlon radius rj oracle
    rfl

/-! ### C8: semantics of the case-insensitive name merge -/

/-- `Map.set` always leaves the entry `(k, v)` in the map. -/
theorem mapSetRoute_self {k : Option String} {v : RouteInfo} :
    ∀ m, (k, v) ∈ mapSetRoute k v m := by
  intro m
  induction m with
  | nil => simp [mapSetRoute]
  | cons q rest ih =>
    obtain ⟨k', v'⟩ := q
    by_cases hk : k' = k
    · simp [mapSetRoute, hk]
    · simp only [mapSetRoute, if_neg hk]
      exact List.mem_cons_of_mem _ ih

/-- Every entry of `Map.set` is the new entry or an old one. -/
theorem mapSetRoute_subset {k : Option String} {v : RouteInfo} :
    ∀ m, ∀ p ∈ mapSetRoute k v m, p = (k, v) ∨ p ∈ m := by
  intro m
  induction m with
  | nil =>
    intro p hp
    simp [mapSetRoute] at hp
    exact Or.inl hp
  | cons q rest ih =>
    obtain ⟨k', v'⟩ := q
    intro p hp
    by_cases hk : k' = k
    · rw [mapSetRoute, if_pos hk] at hp
      rcases List.mem_cons.mp hp with h | h
      · exact Or.inl h
      · exact Or.inr (List.mem_cons_of_mem _ h)
    · rw [mapSetRoute, if_neg hk] at hp
      rcases List.mem_cons.mp hp with h | h
      · exact Or.inr (h ▸ List.mem_cons_self _ _)
      · rcases ih p h with h1 | h1
        · exact Or.inl h1
        · exact Or.inr (List.mem_cons_of_mem _ h1)

/-- `Map.set` preserves the presence of every key. -/
theorem mapSetRoute_preserves_key {k : Option String} {v : RouteInfo}
    {k0 : Option String} :
    ∀ m, (∃ w, (k0, w) ∈ m) → ∃ w, (k0, w) ∈ mapSetRoute k v m := by
  intro m
  by_cases hkk : k0 = k
  · subst hkk
    intro _
    exact ⟨v, mapSetRoute_self m⟩
  · induction m with
    | nil =>
      intro h
      obtain ⟨w, hw⟩ := h
      simp at hw
    | cons q rest ih =>
      obtain ⟨k', v'⟩ := q
      intro h
      obtain ⟨w, hw⟩ := h
      by_cases hk : k' = k
      · rw [mapSetRoute, if_pos hk]
        rcases List.mem_cons.mp hw with h1 | h1
        · exact absurd ((congrArg Prod.fst h1).trans hk) hkk
        · exact ⟨w, List.mem_cons_of_mem _ h1⟩
      · rw [mapSetRoute, if_neg hk]
        rcases List.mem_cons.mp hw with h1 | h1
        · exact ⟨w, h1 ▸ List.mem_cons_self _ _⟩
        · obtain ⟨w', hw'⟩ := ih ⟨w, h1⟩
          exact ⟨w', List.mem_cons_of_mem _ hw'⟩

/-- Entries after folding `Map.set` over a route list: each is keyed by
its value's id, and the value comes from the list or the initial map. -/
theorem foldl_set_entries (S : RouteInfo → Prop) :
    ∀ (l : List RouteInfo) (m : List (Option String × RouteInfo)),
      (∀ r ∈ l, S r) → (∀ p ∈ m, ∃ r, S r ∧ p = (r.id, r)) →
      ∀ p ∈ l.foldl (fun m r => mapSetRoute r.id r m) m, ∃ r, S r ∧ p = (r.id, r) := by
  intro l
  induction l with
  | nil => intro m _ hm p hp; exact hm p hp
  | cons r rest ih =>
    intro m hl hm p hp
    refine ih (mapSetRoute r.id r m) (fun x hx => hl x (List.mem_cons_of_mem _ hx)) ?_ p hp
    intro q hq
    rcases mapSetRoute_subset m q hq with h | h
    · exact ⟨r, hl r (List.mem_cons_self _ _), h⟩
    · exact hm q h

/-- Folding `Map.set` preserves the presence of every key. -/
theorem foldl_set_preserves_key {k0 : Option String} :
    ∀ (l : List RouteInfo) (m : List (Option String × RouteInfo)),
      (∃ w, (k0, w) ∈ m) →
      ∃ w, (k0, w) ∈ l.foldl (fun m r => mapSetRoute r.id r m) m := by
  intro l
  induction l with
  | nil => intro m h; exact h
  | cons r rest ih =>
    intro m h
    exact ih (mapSetRoute r.id r m) (mapSetRoute_preserves_key m h)

/-- After folding `Map.set` over a route list, every listed route's id
is a key of the map. -/
theorem foldl_set_covers :
    ∀ (l : List RouteInfo) (m : List (Option String × RouteInfo)), ∀ r ∈ l,
      ∃ w, (r.id, w) ∈ l.foldl (fun m r => mapSetRoute r.id r m) m := by
  intro l
  induction l with
  | nil => intro m r hr; simp at hr
  | cons r0 rest ih =>
    intro m r hr
    rcases List.mem_cons.mp hr with h | h
    · subst h
      exact foldl_set_preserves_key rest _ ⟨r, mapSetRoute_self m⟩
    · exact ih (mapSetRoute r0.id r0 m) r h

/-- Entries of the conditional-append fold (second phase of the union)
come from the initial map or the appended list. -/
theorem foldl_add_entries :
    ∀ (l : List RouteInfo) (m : List (Option String × RouteInfo)),
      ∀ p ∈ l.foldl (fun m r =>
          if m.any (fun p => decide (p.1 = r.id)) then m else m ++ [(r.id, r)]) m,
        p ∈ m ∨ ∃ r ∈ l, p = (r.id, r) := by
  intro l
  induction l with
  | nil => intro m p hp; exact Or.inl hp
  | cons r rest ih =>
    intro m p hp
    rw [List.foldl_cons] at hp
    rcases ih _ p hp with h | h
    · by_cases hc : m.any (fun p => decide (p.1 = r.id)) = true
      · rw [if_pos hc] at h
        exact Or.inl h
      · rw [if_neg hc] at h
        rcases List.mem_append.mp h with h1 | h1
        · exact Or.inl h1
        · rw [List.mem_singleton] at h1
          exact Or.inr ⟨r, List.mem_cons_self _ _, h1⟩
    · obtain ⟨r', hr', hp'⟩ := h
      exact Or.inr ⟨r', List.mem_cons_of_mem _ hr', hp'⟩

/-- The conditional-append fold keeps every existing entry. -/
theorem foldl_add_preserves :
    ∀ (l : List RouteInfo) (m : List (Option String × RouteInfo)) (p : Option String × RouteInfo),
      p ∈ m →
      p ∈ l.foldl (fun m r =>
        if m.any (fun p => decide (p.1 = r.id)) then m else m ++ [(r.id, r)]) m := by
  intro l
  induction l with
  | nil => intro m p hp; exact hp
  | cons r rest ih =>
    intro m p hp
    rw [List.foldl_cons]
    refine ih _ p ?_
    by_cases hc : m.any (fun p => decide (p.1 = r.id)) = true
    · rw [if_pos hc]; exact hp
    · rw [if_neg hc]; exact List.mem_append_left _ hp

/-- After the conditional-append fold, every listed route's id is a key. -/
theorem foldl_add_covers :
    ∀ (l : List RouteInfo) (m : List (Option String × RouteInfo)), ∀ r ∈ l,
      ∃ w, (r.id, w) ∈ l.foldl (fun m r =>
        if m.any (fun p => decide (p.1 = r.id)) then m else m ++ [(r.id, r)]) m := by
  intro l
  induction l with
  | nil => intro m r hr; simp at hr
  | cons r0 rest ih =>
    intro m r hr
    rcases List.mem_cons.mp hr with h | h
    · subst h
      rw [List.foldl_cons]
      by_cases hc : m.any (fun p => decide (p.1 = r.id)) = true
      · obtain ⟨p, hp, hdec⟩ := List.any_eq_true.mp hc
        have hkey : p.1 = r.id := of_decide_eq_true hdec
        refine ⟨p.2, ?_⟩
        rw [if_pos hc]
        exact foldl_add_preserves rest m (r.id, p.2) (by rw [← hkey]; exact hp)
      · refine ⟨r, ?_⟩
        rw [if_neg hc]
        exact foldl_add_preserves rest _ (r.id, r)
          (List.mem_append_right _ (List.mem_singleton.mpr rfl))
    · rw [List.foldl_cons]
      exact ih _ r h

/-- Every route of the union comes from one of the two route lists. -/
theorem routesUnion_mem (es ss : List RouteInfo) :
    ∀ x ∈ routesUnion es ss, x ∈ es ∨ x ∈ ss := by
  intro x hx
  obtain ⟨p, hp, hx⟩ := List.mem_map.mp hx
  rcases foldl_add_entries ss _ p hp with h | h
  · obtain ⟨r, hr, hp'⟩ := foldl_set_entries (· ∈ es) es [] (fun r hr => hr)
      (by simp) p h
    exact Or.inl (hx ▸ hp' ▸ hr)
  · obtain ⟨r, hr, hp'⟩ := h
    exact Or.inr (hx ▸ hp' ▸ hr)

/-- Every route of either list is represented in the union by id. -/
theorem routesUnion_covers (es ss : List RouteInfo) :
    ∀ r, (r ∈ es ∨ r ∈ ss) → ∃ x ∈ routesUnion es ss, x.id = r.id := by
  intro r hr
  have hentry : ∀ p ∈ (ss.foldl (fun m r =>
      if m.any (fun p => decide (p.1 = r.id)) then m else m ++ [(r.id, r)])
      (es.foldl (fun m r => mapSetRoute r.id r m) [])), p.1 = p.2.id := by
    intro p hp
    rcases foldl_add_entries ss _ p hp with h | h
    · obtain ⟨r', _, hp'⟩ := foldl_set_entries (· ∈ es) es [] (fun x hx => hx)
        (by simp) p h
      rw [hp']
    · obtain ⟨r', _, hp'⟩ := h
      rw [hp']
  rcases hr with h | h
  · obtain ⟨w, hw⟩ := foldl_set_covers es [] r h
    have hw2 := foldl_add_preserves ss _ (r.id, w) hw
    refine ⟨w, List.mem_map.mpr ⟨(r.id, w), hw2, rfl⟩, ?_⟩
    exact (hentry (r.id, w) hw2).symm
  · obtain ⟨w, hw⟩ := foldl_add_covers ss _ r h
    refine ⟨w, List.mem_map.mpr ⟨(r.id, w), hw, rfl⟩, ?_⟩
    exact (hentry (r.id, w) hw).symm

/-- C8: two stations with case-insensitively equal trimmed names merge
into a single Station holding the union of both route sets (every merged
route comes from one of the two, and every route of either is
represented by id), the closer station's distance and coordinate, the OR
of the two wheelchair flags, and the first occurrence's id and name
(hence its position). -/
theorem C8_case_insensitive_name_merge {α : Type} [LinearOrder α]
    (s t : Station α) (h : lowerTrim s.name = lowerTrim t.name) :
    mergeByName [s, t] = [{ s with
        routes := routesUnion s.routes t.routes,
        latitude := if t.distance < s.distance then t.latitude else s.latitude,
        longitude := if t.distance < s.distance then t.longitude else s.longitude,
        distance := min s.distance t.distance,
        wheelchair_accessible := s.wheelchair_accessible || t.wheelchair_accessible }]
    ∧ (∀ x ∈ routesUnion s.routes t.routes, x ∈ s.routes ∨ x ∈ t.routes)
    ∧ (∀ r, (r ∈ s.routes ∨ r ∈ t.routes) →
        ∃ x ∈ routesUnion s.routes t.routes, x.id = r.id) := by
  refine ⟨?_, routesUnion_mem _ _, routesUnion_covers _ _⟩
  have h1 : mergeByName [s, t] = [mergeStation s t] := by
    simp [mergeByName, mergeInto, h]
  rw [h1]
  unfold mergeStation
  by_cases hd : t.distance < s.distance
  · cases hwc : t.wheelchair_accessible
    · simp [hd, hwc, min_eq_right hd.le]
    · simp [hd, hwc, min_eq_right hd.le]
  · cases hwc : t.wheelchair_accessible
    · simp [hd, hwc, min_eq_left (not_lt.mp hd)]
    · simp [hd, hwc, min_eq_left (not_lt.mp hd)]

/-- A classified route object serving the witness stations. -/
def wRouteA : RouteInfo :=
  { id := some "Red", name := some "Red Line", emoji := "🔴", color := "#DA291C" }

/-- A classified route object shared by both witness stations. -/
def wRouteB : RouteInfo :=
  { id := some "Green-B", name := some "Green Line B", emoji := "B🟢", color := "#00843D" }

/-- A classified route object of the later witness station only. -/
def wRouteC : RouteInfo :=
  { id := some "Mattapan", name := some "Mattapan Trolley", emoji := "M🔴", color := "#FFC72C" }

/-- The earlier pre-merge station of the C8 witness. -/
def wStaA : Station ℚ :=
  { id := "pk1", name := "Park Street", latitude := 42, longitude := -71,
    distance := 2, wheelchair_accessible := false,
    routes := [wRouteA, wRouteB], hasRouteData := true }

/-- The later duplicate-named pre-merge station of the C8 witness. -/
def wStaB : Station ℚ :=
  { id := "pk2", name := "park street ", latitude := 43, longitude := -70,
    distance := 1, wheelchair_accessible := true,
    routes := [wRouteB, wRouteC], hasRouteData := true }

/-- Witness for C8 at a concrete duplicate-named pair. -/
theorem C8_case_insensitive_name_merge_witness :
    mergeByName [wStaA, wStaB] = [{ wStaA with
        routes := routesUnion wStaA.routes wStaB.routes,
        latitude := if wStaB.distance < wStaA.distance then wStaB.latitude else wStaA.latitude,
        longitude := if wStaB.distance < wStaA.distance then wStaB.longitude else wStaA.longitude,
        distance := min wStaA.distance wStaB.distance,
        wheelchair_accessible := wStaA.wheelchair_accessible || wStaB.wheelchair_accessible }] :=
  (C8_case_insensitive_name_merge wStaA wStaB (by decide)).1

/-! ### C1: length, radius and ascending-distance order of the output -/

/-- Merging never changes the surviving station's distance unless the
duplicate is strictly closer. -/
theorem mergeStation_distance {α : Type} [LinearOrder α] (e s : Station α) :
    (mergeStation e s).distance =
      if s.distance < e.distance then s.distance else e.distance := by
  unfold mergeStation
  by_cases hd : s.distance < e.distance <;> cases hwc : s.wheelchair_accessible <;>
    simp [hd, hwc]

/-- Merging never changes `hasRouteData` of the surviving station. -/
theorem mergeStation_hasRouteData {α : Type} [LinearOrder α] (e s : Station α) :
    (mergeStation e s).hasRouteData = e.hasRouteData := by
  unfold mergeStation
  by_cases hd : s.distance < e.distance <;> cases hwc : s.wheelchair_accessible <;>
    simp [hd, hwc]

/-- When the incoming station is no closer than anything accumulated,
one merge step leaves the accumulated distance list unchanged or appends
the incoming distance at the end. -/
theorem mergeInto_dists {α : Type} [LinearOrder α] (s : Station α) :
    ∀ acc : List (Station α), (∀ u ∈ acc, u.distance ≤ s.distance) →
      (mergeInto acc s).map (·.distance) = acc.map (·.distance)
      ∨ (mergeInto acc s).map (·.distance) = acc.map (·.distance) ++ [s.distance] := by
  intro acc
  induction acc with
  | nil =>
    intro _
    right
    simp [mergeInto]
  | cons e rest ih =>
    intro hle
    by_cases hname : lowerTrim e.name = lowerTrim s.name
    · left
      simp only [mergeInto, if_pos hname, List.map_cons]
      rw [mergeStation_distance, if_neg (not_lt.mpr (hle e (List.mem_cons_self _ _)))]
    · rcases ih (fun u hu => hle u (List.mem_cons_of_mem _ hu)) with h | h
      · left
        simp only [mergeInto, if_neg hname, List.map_cons, h]
      · right
        simp only [mergeInto, if_neg hname, List.map_cons, h, List.cons_append]

/-- The merge fold keeps the distance list sorted, keeps every distance
satisfying any stable predicate `S`, and never grows the list beyond its
input. -/
theorem mergeFold_props {α : Type} [LinearOrder α] (S : α → Prop) :
    ∀ (l acc : List (Station α)),
      ((l.map (·.distance)).Sorted (· ≤ ·)) →
      ((acc.map (·.distance)).Sorted (· ≤ ·)) →
      (∀ u ∈ acc, ∀ v ∈ l, u.distance ≤ v.distance) →
      (∀ u ∈ acc, S u.distance) → (∀ v ∈ l, S v.distance) →
      (((l.foldl mergeInto acc).map (·.distance)).Sorted (· ≤ ·))
      ∧ (∀ u ∈ l.foldl mergeInto acc, S u.distance)
      ∧ (l.foldl mergeInto acc).length ≤ acc.length + l.length := by
  intro l
  induction l with
  | nil =>
    intro acc _ hacc _ hSacc _
    exact ⟨hacc, hSacc, by simp⟩
  | cons s rest ih =>
    intro acc hl hacc hle hSacc hSl
    rw [List.map_cons, List.sorted_cons] at hl
    obtain ⟨hs_rest, hl_rest⟩ := hl
    have hle_s : ∀ u ∈ acc, u.distance ≤ s.distance :=
      fun u hu => hle u hu s (List.mem_cons_self _ _)
    have hd := mergeInto_dists s acc hle_s
    have hmem_dist : ∀ u ∈ mergeInto acc s,
        u.distance ∈ acc.map (·.distance) ∨ u.distance = s.distance := by
      intro u hu
      have hin : u.distance ∈ (mergeInto acc s).map (·.distance) :=
        List.mem_map_of_mem _ hu
      rcases hd with h | h
      · rw [h] at hin
        exact Or.inl hin
      · rw [h] at hin
        rcases List.mem_append.mp hin with h1 | h1
        · exact Or.inl h1
        · exact Or.inr (List.mem_singleton.mp h1)
    have hsorted' : ((mergeInto acc s).map (·.distance)).Sorted (· ≤ ·) := by
      rcases hd with h | h
      · rw [h]; exact hacc
      · rw [h]
        rw [List.Sorted, List.pairwise_append]
        refine ⟨hacc, by simp, ?_⟩
        intro a ha b hb
        rw [List.mem_singleton] at hb
        obtain ⟨u, hu, hud⟩ := List.mem_map.mp ha
        exact hb ▸ hud ▸ hle_s u hu
    have hS' : ∀ u ∈ mergeInto acc s, S u.distance := by
      intro u hu
      rcases hmem_dist u hu with h1 | h1
      · obtain ⟨v, hv, hvd⟩ := List.mem_map.mp h1
        exact hvd ▸ hSacc v hv
      · exact h1 ▸ hSl s (List.mem_cons_self _ _)
    have hle' : ∀ u ∈ mergeInto acc s, ∀ v ∈ rest, u.distance ≤ v.distance := by
      intro u hu v hv
      rcases hmem_dist u hu with h1 | h1
      · obtain ⟨w, hw, hwd⟩ := List.mem_map.mp h1
        exact hwd ▸ hle w hw v (List.mem_cons_of_mem _ hv)
      · rw [h1]
        exact hs_rest v.distance (List.mem_map_of_mem _ hv)
    have hlen' : (mergeInto acc s).length ≤ acc.length + 1 := by
      rcases hd with h | h <;>
      · have h2 := congrArg List.length h
        simp only [List.length_map, List.length_append, List.length_singleton] at h2
        omega
    obtain ⟨h1, h2, h3⟩ := ih (mergeInto acc s) hl_rest hsorted' hle' hS'
      (fun v hv => hSl v (List.mem_cons_of_mem _ hv))
    refine ⟨h1, h2, ?_⟩
    calc (rest.foldl mergeInto (mergeInto acc s)).length
        ≤ (mergeInto acc s).length + rest.length := h3
      _ ≤ acc.length + 1 + rest.length := by omega
      _ = acc.length + (s :: rest).length := by simp; omega

/-- The duplicate-name merge of a distance-sorted station list is sorted
(the merge preserves the order rather than re-sorting), keeps every
distance property, and never lengthens the list. -/
theorem mergeByName_props {α : Type} [LinearOrder α] (S : α → Prop)
    (l : List (Station α)) (hsorted : (l.map (·.distance)).Sorted (· ≤ ·))
    (hS : ∀ v ∈ l, S v.distance) :
    (((mergeByName l).map (·.distance)).Sorted (· ≤ ·))
    ∧ (∀ u ∈ mergeByName l, S u.distance)
    ∧ (mergeByName l).length ≤ l.length := by
  have h := mergeFold_props S l [] hsorted (by simp) (by simp) (by simp) hS
  simpa [mergeByName] using h

/-- The ranked list is distance-sorted, within the radius, and at most 3
long. -/
theorem processStations_props {α : Type} [LinearOrder α]
    (dist : StationGroup → α) (radius : α) (groups : List StationGroup) :
    (((processStations dist radius groups).map (·.2)).Sorted (· ≤ ·))
    ∧ (∀ p ∈ processStations dist radius groups, p.2 ≤ radius)
    ∧ (processStations dist radius groups).length ≤ 3 := by
  refine ⟨?_, ?_, ?_⟩
  · have htrans : ∀ (a b c : StationGroup × α),
        distLe a b → distLe b c → distLe a c := fun a b c hab hbc => by
      simp only [distLe, decide_eq_true_eq] at *
      exact le_trans hab hbc
    have htotal : ∀ (a b : StationGroup × α), distLe a b || distLe b a :=
      fun a b => by
        simp only [distLe, Bool.or_eq_true, decide_eq_true_eq]
        exact le_total _ _
    have hs := List.sorted_mergeSort htrans htotal
      ((groups.map (fun g => (g, dist g))).filter (fun p => decide (p.2 ≤ radius)))
    have htake := hs.sublist ((((groups.map (fun g => (g, dist g))).filter
      (fun p => decide (p.2 ≤ radius))).mergeSort distLe).take_sublist 3)
    unfold processStations
    rw [List.Sorted, List.pairwise_map]
    exact htake.imp (fun h => of_decide_eq_true h)
  · intro p hp
    unfold processStations at hp
    have h1 := List.take_subset _ _ hp
    have h2 := List.mem_mergeSort.mp h1
    have h3 := (List.mem_filter.mp h2).2
    exact of_decide_eq_true h3
  · unfold processStations
    calc (List.take 3 _).length ≤ 3 := by
          rw [List.length_take]
          exact min_le_left _ _

/-! ### C9: per-stop route failures degrade to empty route lists -/

/-- `Map.get` after `Map.set` of the same key. -/
theorem mapGet_mapSetStr_self (k : String) (v : List RouteInfo) :
    ∀ m, mapGet (mapSetStr k v m) k = some v := by
  intro m
  induction m with
  | nil => simp [mapSetStr, mapGet]
  | cons q rest ih =>
    obtain ⟨k', v'⟩ := q
    by_cases hk : k' = k
    · simp [mapSetStr, hk, mapGet]
    · simp only [mapSetStr, if_neg hk]
      simpa [mapGet, List.find?, hk] using ih

/-- `Map.get` after `Map.set` of a different key. -/
theorem mapGet_mapSetStr_other {k k0 : String} (v : List RouteInfo)
    (hne : k0 ≠ k) : ∀ m, mapGet (mapSetStr k v m) k0 = mapGet m k0 := by
  intro m
  induction m with
  | nil => simp [mapSetStr, mapGet, List.find?, Ne.symm hne]
  | cons q rest ih =>
    obtain ⟨k', v'⟩ := q
    by_cases hk : k' = k
    · subst hk
      simp [mapSetStr, mapGet, List.find?, Ne.symm hne]
    · simp only [mapSetStr, if_neg hk]
      by_cases hk0 : k' = k0
      · subst hk0
        simp [mapGet, List.find?]
      · simpa [mapGet, List.find?, hk0] using ih

/-- Keys not in the remaining id list are untouched by the fetch loop. -/
theorem buildStopRoutesMap_untouched
    (oracle : String → Except ApiError (Option RoutesJson)) {sid : String} :
    ∀ (ids : List String) (m : List (String × List RouteInfo)), sid ∉ ids →
      mapGet (ids.foldl
        (fun m s => mapSetStr s (classifyStopRoutes (oracle s)) m) m) sid
      = mapGet m sid := by
  intro ids
  induction ids with
  | nil => intro m _; rfl
  | cons i rest ih =>
    intro m hnot
    rw [List.foldl_cons]
    rw [ih _ (fun h => hnot (List.mem_cons_of_mem _ h))]
    exact mapGet_mapSetStr_other _
      (fun h => hnot (by rw [h]; exact List.mem_cons_self _ _)) m

/-- Every listed stop id receives exactly the classification of its own
fetch outcome — failures included — in the stop-routes map. -/
theorem buildStopRoutesMap_covers
    (oracle : String → Except ApiError (Option RoutesJson)) :
    ∀ (ids : List String) (sid : String), sid ∈ ids →
      mapGet (buildStopRoutesMap oracle ids) sid
        = some (classifyStopRoutes (oracle sid)) := by
  have main : ∀ (ids : List String) (m : List (String × List RouteInfo)) (sid : String),
      sid ∈ ids →
      mapGet (ids.foldl
        (fun m s => mapSetStr s (classifyStopRoutes (oracle s)) m) m) sid
      = some (classifyStopRoutes (oracle sid)) := by
    intro ids
    induction ids with
    | nil => intro m sid h; simp at h
    | cons i rest ih =>
      intro m sid h
      rw [List.foldl_cons]
      by_cases hr : sid ∈ rest
      · exact ih _ sid hr
      · have hsi : sid = i := by
          rcases List.mem_cons.mp h with h1 | h1
          · exact h1
          · exact absurd h1 hr
        subst hsi
        rw [buildStopRoutesMap_untouched oracle rest _ hr]
        exact mapGet_mapSetStr_self sid _ m
  intro ids sid h
  exact main ids [] sid h

/-- Membership in the ranked list comes from the group list, with the
distance attached by the ranking map. -/
theorem processStations_mem {α : Type} [LinearOrder α]
    {dist : StationGroup → α} {radius : α} {groups : List StationGroup}
    {p : StationGroup × α} (hp : p ∈ processStations dist radius groups) :
    p.1 ∈ groups ∧ p.2 = dist p.1 := by
  unfold processStations at hp
  have h1 := List.take_subset _ _ hp
  have h2 := List.mem_mergeSort.mp h1
  have h3 := (List.mem_filter.mp h2).1
  obtain ⟨g, hg, hgp⟩ := List.mem_map.mp h3
  refine ⟨?_, ?_⟩
  · rw [← hgp]; exact hg
  · rw [← hgp]

/-- Groups produced by the grouping fold are never empty. -/
theorem groupStops_nonempty (stops : List RawStop) :
    ∀ g ∈ groupStops stops, g.stops ≠ [] := by
  exact groupStops_forall (P := fun g => g.stops ≠ [])
    (fun s _ la lo => by simp)
    (fun g' s _ h => by simp)
    stops

/-- The merge fold preserves `hasRouteData` across all survivors. -/
theorem mergeFold_hasRouteData {α : Type} [LinearOrder α] :
    ∀ (l acc : List (Station α)),
      (∀ u ∈ acc, u.hasRouteData = true) → (∀ v ∈ l, v.hasRouteData = true) →
      ∀ u ∈ l.foldl mergeInto acc, u.hasRouteData = true := by
  have step : ∀ (acc : List (Station α)) (s : Station α),
      (∀ u ∈ acc, u.hasRouteData = true) → s.hasRouteData = true →
      ∀ u ∈ mergeInto acc s, u.hasRouteData = true := by
    intro acc
    induction acc with
    | nil =>
      intro s _ hs u hu
      rw [List.mem_singleton.mp hu]
      exact hs
    | cons e rest ih =>
      intro s hacc hs u hu
      unfold mergeInto at hu
      by_cases hname : lowerTrim e.name = lowerTrim s.name
      · rw [if_pos hname] at hu
        rcases List.mem_cons.mp hu with h | h
        · rw [h, mergeStation_hasRouteData]
          exact hacc e (List.mem_cons_self _ _)
        · exact hacc u (List.mem_cons_of_mem _ h)
      · rw [if_neg hname] at hu
        rcases List.mem_cons.mp hu with h | h
        · rw [h]
          exact hacc e (List.mem_cons_self _ _)
        · exact ih s (fun x hx => hacc x (List.mem_cons_of_mem _ hx)) hs u h
  intro l
  induction l with
  | nil => intro acc hacc _ u hu; exact hacc u hu
  | cons s rest ih =>
    intro acc hacc hl u hu
    rw [List.foldl_cons] at hu
    exact ih (mergeInto acc s)
      (step acc s hacc (hl s (List.mem_cons_self _ _)))
      (fun v hv => hl v (List.mem_cons_of_mem _ hv)) u hu

/-- The distance of a built Station is the ranked pair's distance. -/
theorem buildStation_distance {α : Type} (m : List (String × List RouteInfo))
    (p : StationGroup × α) : (buildStation m p).distance = p.2 :=
  rfl

/-- Output properties of the whole resolution, generic in the distance
type: whenever it succeeds, the station list has length at most 3, its
distances are sorted ascending, and every distance is within the radius. -/
theorem resolveStations_output_props {α : Type} [LinearOrder α]
    (dist : StationGroup → α) (radius : α)
    (routesResp : Except ApiError (Option RoutesJson))
    (stopsResp : Except ApiError (Option StopsJson))
    (stopOracle : String → Except ApiError (Option RoutesJson)) :
    match resolveStations dist radius routesResp stopsResp stopOracle with
    | .ok l => l.length ≤ 3 ∧ ((l.map (·.distance)).Sorted (· ≤ ·))
        ∧ ∀ u ∈ l, u.distance ≤ radius
    | .error _ => True := by
  cases routesResp with
  | error e => simp [resolveStations]
  | ok orj =>
    cases orj with
    | none => simp [resolveStations]
    | some rj =>
      cases stopsResp with
      | error e => simp [resolveStations]
      | ok osj =>
        cases osj with
        | none => simp [resolveStations]
        | some sj =>
          cases hsd : sj.data with
          | none => simp [resolveStations, hsd]
          | some stops =>
            simp only [resolveStations, hsd]
            obtain ⟨hsort, hrad, hlen⟩ :=
              processStations_props dist radius (groupStops stops)
            have hmapdist :
                ((processStations dist radius (groupStops stops)).map
                  (buildStation (buildStopRoutesMap stopOracle
                    (allStopIds (processStations dist radius (groupStops stops)))))).map
                  (·.distance)
                = (processStations dist radius (groupStops stops)).map (·.2) := by
              rw [List.map_map]
              rfl
            obtain ⟨h1, h2, h3⟩ := mergeByName_props (fun d => d ≤ radius)
              ((processStations dist radius (groupStops stops)).map
                (buildStation (buildStopRoutesMap stopOracle
                  (allStopIds (processStations dist radius (groupStops stops))))))
              (by rw [hmapdist]; exact hsort)
              (by
                intro v hv
                obtain ⟨p, hp, hpv⟩ := List.mem_map.mp hv
                rw [← hpv, buildStation_distance]
                exact hrad p hp)
            refine ⟨?_, h1, h2⟩
            calc (mergeByName _).length ≤ _ := h3
              _ = (processStations dist radius (groupStops stops)).length :=
                List.length_map _ _
              _ ≤ 3 := hlen

/-- C1: whenever `fetchNearbyStations` succeeds, it returns at most 3
Stations, each within the query radius, listed in ascending order of
distance — and the final name-merge step preserved that ascending order
(`mergeByName_props`: the merge does not re-sort). -/
theorem C1_radius_top3_sorted (qlat qlon radius : ℝ)
    (routesResp : Except ApiError (Option RoutesJson))
    (stopsResp : Except ApiError (Option StopsJson))
    (stopOracle : String → Except ApiError (Option RoutesJson)) :
    match fetchNearbyStations qlat qlon radius routesResp stopsResp stopOracle with
    | .ok l => l.length ≤ 3 ∧ ((l.map (·.distance)).Sorted (· ≤ ·))
        ∧ ∀ u ∈ l, u.distance ≤ radius
    | .error _ => True := by
  unfold fetchNearbyStations
  have h := resolveStations_output_props
    (fun g => calculateDistance qlat qlon (g.latitude : ℝ) (g.longitude : ℝ))
    radius routesResp stopsResp stopOracle
  cases hres : resolveStations
      (fun g => calculateDistance qlat qlon (g.latitude : ℝ) (g.longitude : ℝ))
      radius routesResp stopsResp stopOracle with
  | error e => exact trivial
  | ok l => rw [hres] at h; exact h

/-- C9: with the top-level fetches successful, the resolution completes
for every per-stop oracle — a per-stop failure is caught for that stop
alone and contributes the empty route list (its map entry is exactly the
classification of its own outcome, and a thrown outcome classifies to
`[]`) — and every returned Station still reports `hasRouteData = true`. -/
theorem C9_resolution_survives_per_stop_failures (qlat qlon radius : ℝ)
    (rj : RoutesJson) (stops : List RawStop)
    (stopOracle : String → Except ApiError (Option RoutesJson)) :
    (∀ e, classifyStopRoutes (.error e) = [])
    ∧ (∀ (o : String → Except ApiError (Option RoutesJson))
        (ids : List String) (sid : String), sid ∈ ids →
        mapGet (buildStopRoutesMap o ids) sid = some (classifyStopRoutes (o sid)))
    ∧ (match fetchNearbyStations qlat qlon radius (.ok (some rj))
          (.ok (some ⟨some stops⟩)) stopOracle with
       | .ok l => ∀ u ∈ l, u.hasRouteData = true
       | .error _ => False) := by
  refine ⟨fun e => rfl, fun o ids sid h => buildStopRoutesMap_covers o ids sid h, ?_⟩
  show ∀ u ∈ mergeByName
      ((processStations _ radius (groupStops stops)).map
        (buildStation (buildStopRoutesMap stopOracle
          (allStopIds (processStations _ radius (groupStops stops)))))),
    u.hasRouteData = true
  intro u hu
  refine mergeFold_hasRouteData _ [] (by simp) ?_ u hu
  intro v hv
  obtain ⟨p, hp, hpv⟩ := List.mem_map.mp hv
  obtain ⟨hg, _⟩ := processStations_mem hp
  have hne := groupStops_nonempty stops p.1 hg
  cases hst : p.1.stops with
  | nil => exact absurd hst hne
  | cons s0 srest =>
    rw [← hpv]
    show (buildStation _ p).hasRouteData = true
    unfold buildStation
    simp only
    rw [hst]
    have hid : s0.id ∈ allStopIds (processStations
        (fun g => calculateDistance qlat qlon (g.latitude : ℝ) (g.longitude : ℝ))
        radius (groupStops stops)) := by
      unfold allStopIds
      rw [List.mem_flatten]
      refine ⟨p.1.stops.map (·.id), List.mem_map_of_mem _ hp, ?_⟩
      rw [hst]
      exact List.mem_map_of_mem _ (List.mem_cons_self _ _)
    have hget := buildStopRoutesMap_covers stopOracle _ s0.id hid
    rw [List.any_cons]
    have : (mapGet (buildStopRoutesMap stopOracle
        (allStopIds (processStations
          (fun g => calculateDistance qlat qlon (g.latitude : ℝ) (g.longitude : ℝ))
          radius (groupStops stops)))) s0.id).isSome = true := by
      rw [hget]; rfl
    rw [this]
    rfl

/-! ### C4: the §8 Park Street example scenario

The haversine value at the example coordinates is bounded by elementary
sine/cosine estimates (`Real.sin_lt`, `Real.sin_gt_sub_cube`) and the
six-decimal bounds on π. -/

/-- Two-sided bound on `sin t * sin t` from rational bounds `a < t < b`. -/
theorem sin_sq_between {t a b : ℝ} (hlo : 0 < a) (h1 : a < t) (h2 : t < b)
    (hhi : b ≤ 1) (hq : 0 < a - b ^ 3 / 4) :
    (a - b ^ 3 / 4) ^ 2 < Real.sin t * Real.sin t
    ∧ Real.sin t * Real.sin t < b ^ 2 := by
  have ht0 : 0 < t := lt_trans hlo h1
  have hsl : Real.sin t < t := Real.sin_lt ht0
  have hsg : t - t ^ 3 / 4 < Real.sin t := Real.sin_gt_sub_cube ht0 (le_of_lt (lt_of_lt_of_le h2 hhi))
  have hcube : t ^ 3 < b ^ 3 := by
    have := pow_lt_pow_left₀ h2 ht0.le (three_ne_zero)
    simpa using this
  have hlow : a - b ^ 3 / 4 < Real.sin t := by nlinarith
  have hspos : 0 < Real.sin t := lt_trans hq hlow
  constructor
  · nlinarith [mul_pos (sub_pos.mpr hlow) (add_pos hspos hq)]
  · have hshi : Real.sin t < b := lt_trans hsl h2
    nlinarith [mul_pos (sub_pos.mpr hshi) (add_pos (lt_trans hq hlow) hspos)]

/-- The half-angle form of the cosine used to bound it numerically. -/
theorem cos_from_half (x : ℝ) :
    Real.cos x = 1 - 2 * (Real.sin (x / 2) * Real.sin (x / 2)) := by
  have h := Real.cos_two_mul' (x := x / 2)
  have h2 : (2 : ℝ) * (x / 2) = x := by ring
  rw [h2] at h
  have h3 := Real.sin_sq_add_cos_sq (x / 2)
  nlinarith [h, h3]

/-- For `0 ≤ A < 1`, the code's `atan2(√a, √(1-a))` is `arcsin √a`. -/
theorem atan2_sqrt_eq_arcsin {A : ℝ} (h0 : 0 ≤ A) (h1 : A < 1) :
    atan2 (Real.sqrt A) (Real.sqrt (1 - A)) = Real.arcsin (Real.sqrt A) := by
  have hx : 0 < Real.sqrt (1 - A) := Real.sqrt_pos.mpr (by linarith)
  unfold atan2
  rw [if_pos hx]
  have hlt1 : Real.sqrt A < 1 := by
    have := (Real.sqrt_lt' one_pos).mpr (by simpa using h1)
    simpa using this
  have hmem : Real.sqrt A ∈ Set.Ioo (-1 : ℝ) 1 :=
    ⟨lt_of_lt_of_le (by norm_num) (Real.sqrt_nonneg A), hlt1⟩
  rw [Real.arcsin_eq_arctan hmem, Real.sq_sqrt h0]

/-- Rational two-sided bound on `arcsin √A` from rational bounds on `A`. -/
theorem arcsin_sqrt_between {A u v : ℝ} (hA0 : 0 ≤ A) (htl0 : 0 ≤ u)
    (htl1 : u ≤ 1) (hth : 0 < v) (hth1 : v ≤ 1)
    (hl : u ^ 2 ≤ A) (hh : A ≤ (v - v ^ 3 / 4) ^ 2) (hq : 0 ≤ v - v ^ 3 / 4) :
    u ≤ Real.arcsin (Real.sqrt A) ∧ Real.arcsin (Real.sqrt A) ≤ v := by
  have hpi : (3 : ℝ) < Real.pi := Real.pi_gt_three
  constructor
  · have h1 : u ≤ Real.sqrt A := (Real.le_sqrt htl0 hA0).mpr hl
    have h2 : Real.sin u ≤ u := by
      rcases eq_or_lt_of_le htl0 with h | h
      · rw [← h]; simp
      · exact (Real.sin_lt h).le
    have h4 := Real.monotone_arcsin (le_trans h2 h1)
    rwa [Real.arcsin_sin (by linarith) (by linarith)] at h4
  · have h5 : v - v ^ 3 / 4 < Real.sin v := Real.sin_gt_sub_cube hth hth1
    have h6 : Real.sqrt A ≤ v - v ^ 3 / 4 := by
      calc Real.sqrt A ≤ Real.sqrt ((v - v ^ 3 / 4) ^ 2) := Real.sqrt_le_sqrt hh
        _ = v - v ^ 3 / 4 := Real.sqrt_sq hq
    have h7 := Real.monotone_arcsin (le_trans h6 h5.le)
    rwa [Real.arcsin_sin (by linarith) (by linarith)] at h7

/-- The code's haversine intermediate `a` at the §8 example coordinates:
query (42.3601, -71.0589), stop (42.3554, -71.0640). -/
noncomputable def parkA : ℝ :=
  Real.sin (0.0047 * Real.pi / 360) * Real.sin (0.0047 * Real.pi / 360)
  + Real.cos (42.3601 * Real.pi / 180) * Real.cos (42.3554 * Real.pi / 180)
    * (Real.sin (0.0051 * Real.pi / 360) * Real.sin (0.0051 * Real.pi / 360))

/-- `calculateDistance` at the example coordinates, in terms of `parkA`. -/
theorem calculateDistance_parkStreet_eq :
    calculateDistance 42.3601 (-71.0589) 42.3554 (-71.0640)
    = 6371 * (2 * atan2 (Real.sqrt parkA) (Real.sqrt (1 - parkA))) * 0.621371 := by
  have e1 : ((42.3554 : ℝ) - 42.3601) * Real.pi / 180 / 2 = -(0.0047 * Real.pi / 360) := by
    rw [show ((42.3554 : ℝ) - 42.3601) = -0.0047 by norm_num]
    ring
  have e2 : ((-71.0640 : ℝ) - -71.0589) * Real.pi / 180 / 2 = -(0.0051 * Real.pi / 360) := by
    rw [show ((-71.0640 : ℝ) - -71.0589) = -0.0051 by norm_num]
    ring
  simp only [calculateDistance, parkA, e1, e2, Real.sin_neg, neg_mul_neg]

set_option maxHeartbeats 2000000 in
/-- Rational two-sided bound on the example's haversine intermediate. -/
theorem parkA_bounds : (2.72827e-9 : ℝ) < parkA ∧ parkA < (2.78200e-9 : ℝ) := by
  have hpl : (3.141592 : ℝ) < Real.pi := Real.pi_gt_d6
  have hpu : Real.pi < (3.141593 : ℝ) := Real.pi_lt_d6
  have hu1 : (0.0000410152 : ℝ) < 0.0047 * Real.pi / 360 := by linarith
  have hu2 : (0.0047 : ℝ) * Real.pi / 360 < 0.0000410153 := by linarith
  have hsu := sin_sq_between (t := 0.0047 * Real.pi / 360)
    (a := 0.0000410152) (b := 0.0000410153)
    (by norm_num) hu1 hu2 (by norm_num) (by norm_num)
  have hsu1 : (1.68224e-9 : ℝ)
      < Real.sin (0.0047 * Real.pi / 360) * Real.sin (0.0047 * Real.pi / 360) :=
    lt_trans (by norm_num) hsu.1
  have hsu2 : Real.sin (0.0047 * Real.pi / 360) * Real.sin (0.0047 * Real.pi / 360)
      < (1.68226e-9 : ℝ) :=
    lt_trans hsu.2 (by norm_num)
  have hv1 : (0.0000445058 : ℝ) < 0.0051 * Real.pi / 360 := by linarith
  have hv2 : (0.0051 : ℝ) * Real.pi / 360 < 0.0000445060 := by linarith
  have hsv := sin_sq_between (t := 0.0051 * Real.pi / 360)
    (a := 0.0000445058) (b := 0.0000445060)
    (by norm_num) hv1 hv2 (by norm_num) (by norm_num)
  have hsv1 : (1.98076e-9 : ℝ)
      < Real.sin (0.0051 * Real.pi / 360) * Real.sin (0.0051 * Real.pi / 360) :=
    lt_trans (by norm_num) hsv.1
  have hsv2 : Real.sin (0.0051 * Real.pi / 360) * Real.sin (0.0051 * Real.pi / 360)
      < (1.98079e-9 : ℝ) :=
    lt_trans hsv.2 (by norm_num)
  have hp1l : (0.3696615 : ℝ) < 42.3601 * Real.pi / 180 / 2 := by linarith
  have hp1u : (42.3601 : ℝ) * Real.pi / 180 / 2 < 0.3696617 := by linarith
  have hs1 := sin_sq_between (t := 42.3601 * Real.pi / 180 / 2)
    (a := 0.3696615) (b := 0.3696617)
    (by norm_num) hp1l hp1u (by norm_num) (by norm_num)
  have hs1l : (0.127472 : ℝ)
      < Real.sin (42.3601 * Real.pi / 180 / 2) * Real.sin (42.3601 * Real.pi / 180 / 2) :=
    lt_trans (by norm_num) hs1.1
  have hs1u : Real.sin (42.3601 * Real.pi / 180 / 2) * Real.sin (42.3601 * Real.pi / 180 / 2)
      < (0.136650 : ℝ) :=
    lt_trans hs1.2 (by norm_num)
  have hp2l : (0.3696205 : ℝ) < 42.3554 * Real.pi / 180 / 2 := by linarith
  have hp2u : (42.3554 : ℝ) * Real.pi / 180 / 2 < 0.3696207 := by linarith
  have hs2 := sin_sq_between (t := 42.3554 * Real.pi / 180 / 2)
    (a := 0.3696205) (b := 0.3696207)
    (by norm_num) hp2l hp2u (by norm_num) (by norm_num)
  have hs2l : (0.127445 : ℝ)
      < Real.sin (42.3554 * Real.pi / 180 / 2) * Real.sin (42.3554 * Real.pi / 180 / 2) :=
    lt_trans (by norm_num) hs2.1
  have hs2u : Real.sin (42.3554 * Real.pi / 180 / 2) * Real.sin (42.3554 * Real.pi / 180 / 2)
      < (0.136620 : ℝ) :=
    lt_trans hs2.2 (by norm_num)
  have hc1 := cos_from_half (42.3601 * Real.pi / 180)
  have hc2 := cos_from_half (42.3554 * Real.pi / 180)
  have hcos1l : (0.726700 : ℝ) < Real.cos (42.3601 * Real.pi / 180) := by
    rw [hc1]; linarith
  have hcos1u : Real.cos (42.3601 * Real.pi / 180) < (0.745056 : ℝ) := by
    rw [hc1]; linarith
  have hcos2l : (0.726760 : ℝ) < Real.cos (42.3554 * Real.pi / 180) := by
    rw [hc2]; linarith
  have hcos2u : Real.cos (42.3554 * Real.pi / 180) < (0.745110 : ℝ) := by
    rw [hc2]; linarith
  have hCl0 := mul_lt_mul'' hcos1l hcos2l (by norm_num) (by norm_num)
  have hCu0 := mul_lt_mul'' hcos1u hcos2u
    (le_of_lt (lt_trans (by norm_num) hcos1l))
    (le_of_lt (lt_trans (by norm_num) hcos2l))
  have hCl : (0.528110 : ℝ)
      < Real.cos (42.3601 * Real.pi / 180) * Real.cos (42.3554 * Real.pi / 180) :=
    lt_trans (by norm_num) hCl0
  have hCu : Real.cos (42.3601 * Real.pi / 180) * Real.cos (42.3554 * Real.pi / 180)
      < (0.555170 : ℝ) :=
    lt_trans hCu0 (by norm_num)
  have hprodl := mul_lt_mul'' hCl hsv1 (by norm_num) (by norm_num)
  have hprodu := mul_lt_mul'' hCu hsv2
    (le_of_lt (lt_trans (by norm_num) hCl))
    (le_of_lt (lt_trans (by norm_num) hsv1))
  constructor
  · unfold parkA
    nlinarith [hsu1, hprodl]
  · unfold parkA
    nlinarith [hsu2, hprodu]

set_option maxHeartbeats 2000000 in
/-- The example distance lies strictly between 0.413 and 0.418 miles. -/
theorem calculateDistance_parkStreet_bounds :
    (0.413 : ℝ) < calculateDistance 42.3601 (-71.0589) 42.3554 (-71.0640)
    ∧ calculateDistance 42.3601 (-71.0589) 42.3554 (-71.0640) < 0.418 := by
  obtain ⟨hAl, hAu⟩ := parkA_bounds
  have hA0 : (0 : ℝ) ≤ parkA := le_of_lt (lt_trans (by norm_num) hAl)
  have hA1 : parkA < 1 := lt_trans hAu (by norm_num)
  rw [calculateDistance_parkStreet_eq, atan2_sqrt_eq_arcsin hA0 hA1]
  obtain ⟨hbl, hbu⟩ := arcsin_sqrt_between (A := parkA)
    (u := 0.0000522328) (v := 0.0000527447)
    hA0 (by norm_num) (by norm_num) (by norm_num) (by norm_num)
    (by nlinarith) (by nlinarith) (by norm_num)
  constructor
  · nlinarith [hbl]
  · nlinarith [hbu]


/-- The single station group of the §8 example: the two Park Street
platform stops (accessible one fetched first) share one key. -/
def c4Group : StationGroup :=
  { stops := [cexStop1, cexStop0], name := "Park Street",
    latitude := Rat.divInt 423554 10000, longitude := Rat.divInt (-710640) 10000,
    wheelchair_accessible := true }

/-- The haversine distance from the example query point to the group. -/
noncomputable def c4Dist : ℝ :=
  calculateDistance 42.3601 (-71.0589) ((c4Group.latitude : ℚ) : ℝ)
    ((c4Group.longitude : ℚ) : ℝ)

/-- Per-stop oracle of the example: every route fetch succeeds with an
empty data array. -/
def c4Oracle : String → Except ApiError (Option RoutesJson) :=
  fun _ => .ok (some ⟨some []⟩)

/-- The resolution of the §8 example scenario: query (42.3601, -71.0589),
radius 1.25, the two Park Street platform stops as the stops payload. -/
noncomputable def c4Result : Except JsFailure (List (Station ℝ)) :=
  fetchNearbyStations 42.3601 (-71.0589) 1.25 (.ok (some ⟨none⟩))
    (.ok (some ⟨some [cexStop1, cexStop0]⟩)) c4Oracle

/-- The single merged Station the example scenario returns. -/
noncomputable def c4Station : Station ℝ :=
  { id := "70201", name := "Park Street",
    latitude := c4Group.latitude, longitude := c4Group.longitude,
    distance := c4Dist, wheelchair_accessible := true,
    routes := [], hasRouteData := true }

/-- The example's distance equals the haversine at the literal
coordinates. -/
theorem c4Dist_eq :
    c4Dist = calculateDistance 42.3601 (-71.0589) 42.3554 (-71.0640) := by
  have h1 : ((Rat.divInt 423554 10000 : ℚ) : ℝ) = 42.3554 := by
    rw [Rat.divInt_eq_div]
    push_cast
    norm_num
  have h2 : ((Rat.divInt (-710640) 10000 : ℚ) : ℝ) = -71.0640 := by
    rw [Rat.divInt_eq_div]
    push_cast
    norm_num
  unfold c4Dist
  rw [show c4Group.latitude = Rat.divInt 423554 10000 from rfl,
      show c4Group.longitude = Rat.divInt (-710640) 10000 from rfl, h1, h2]

/-- Evaluating the pipeline on the example scenario: exactly one merged
Station comes back. -/
theorem c4Result_eq : c4Result = .ok [c4Station] := by
  have hd_le : calculateDistance 42.3601 (-71.0589) ((c4Group.latitude : ℚ) : ℝ)
      ((c4Group.longitude : ℚ) : ℝ) ≤ 1.25 := by
    have h := calculateDistance_parkStreet_bounds.2
    have he : c4Dist = calculateDistance 42.3601 (-71.0589) 42.3554 (-71.0640) :=
      c4Dist_eq
    unfold c4Dist at he
    rw [he]
    linarith
  have hg : groupStops [cexStop1, cexStop0] = [c4Group] := by decide
  unfold c4Result fetchNearbyStations resolveStations
  dsimp only
  rw [hg]
  unfold processStations
  simp only [List.map_cons, List.map_nil, List.filter_cons, List.filter_nil,
    decide_eq_true hd_le, if_true, List.mergeSort_singleton, List.take_succ_cons,
    List.take_nil]
  rfl

/-- C4 counterexample: in the §8 example scenario the single merged
Station "Park Street" is returned with `wheelchair_accessible = true`,
but its distance is strictly below 0.45 miles (about 0.42), not
approximately 0.62 miles, and the stop is strictly closer than 0.73 km
(about 0.67), not 1.0 km away: the claim's numbers are false on the
code's haversine. -/
theorem C4_counterexample_example_distance :
    c4Result = .ok [c4Station]
    ∧ c4Station.name = "Park Street"
    ∧ c4Station.wheelchair_accessible = true
    ∧ c4Station.distance = c4Dist
    ∧ c4Dist < 0.45
    ∧ c4Dist / 0.621371 < 0.73 := by
  have hb := calculateDistance_parkStreet_bounds
  have he := c4Dist_eq
  refine ⟨c4Result_eq, rfl, rfl, rfl, ?_, ?_⟩
  · rw [he]
    linarith [hb.2]
  · rw [he, div_lt_iff₀ (by norm_num : (0:ℝ) < 0.621371)]
    linarith [hb.2]

/-- C4 amended: in the §8 example scenario — the accessible platform
stop fetched first — `fetchNearbyStations` returns exactly one merged
Station "Park Street" with `wheelchair_accessible = true`, at a distance
of approximately 0.42 miles (between 0.413 and 0.418), the stop being
approximately 0.67 km away (between 0.66 and 0.68 km) under the
haversine formula with Earth radius 6371 km and mile factor 0.621371. -/
theorem C4_amended_example_scenario :
    c4Result = .ok [c4Station]
    ∧ c4Station.name = "Park Street"
    ∧ c4Station.wheelchair_accessible = true
    ∧ c4Station.distance = c4Dist
    ∧ (0.413 : ℝ) < c4Dist ∧ c4Dist < 0.418
    ∧ (0.66 : ℝ) < c4Dist / 0.621371 ∧ c4Dist / 0.621371 < 0.68 := by
  have hb := calculateDistance_parkStreet_bounds
  have he := c4Dist_eq
  refine ⟨c4Result_eq, rfl, rfl, rfl, ?_, ?_, ?_, ?_⟩
  · rw [he]; linarith [hb.1]
  · rw [he]; linarith [hb.2]
  · rw [he, lt_div_iff₀ (by norm_num : (0:ℝ) < 0.621371)]
    linarith [hb.1]
  · rw [he, div_lt_iff₀ (by norm_num : (0:ℝ) < 0.621371)]
    linarith [hb.2]

end Subwayfinder
